import Mathlib

/-!
Verification development for the `hotstuff_consensus` repository.

The Python sources are embedded shallowly:

* `block.py` : `Block`, `mkBlock`, `Block.calculateHash`, `blockInit`
* `node.py` : `NodeState`, `receive_vote`, `runConsensusRound` (and its
  phase helpers), `flushMessageBatch`, `handleRecoveryDataPy`, the
  strict post-state functions (`processVoteMessage`,
  `runConsensusRoundPy`, `handleRecoveryDataPyState`) and the
  reachability relation `ReachablePy`
* `distributed_ledger.py` / `transaction.py` : `DistributedLedger`,
  `Transaction`, `add_transaction`, `apply_transaction`, `add_block`

Modelling conventions, used consistently below:

* Python dicts become ordered association lists (`List (key × value)`):
  assignment (`d[k] = v`) replaces the value in place when the key is
  present and appends the pair otherwise, exactly as CPython preserves
  insertion order; `defaultdict` reads are modelled by `Option.getD`.
* Python sets of small integer node ids become duplicate-free `List Nat`
  values kept in insertion order; `set.add` appends when absent.
* Real-valued quantities (amounts, balances) are modelled over `Int`;
  the repository only ever feeds integral amounts into them and no claim
  depends on float rounding.
* The wall clock (`time.time()`) is an environment input: functions that
  read it take the sampled value as an explicit argument.  The one place
  where the source cannot actually read the clock - `Block.__init__`
  evaluates `time.time()` although `block.py` never imports `time` - is
  modelled separately by `blockInit`, which performs the Python name
  lookup against the module globals and fails with a `NameError`.
* Network and crypto effects (Fernet encryption, socket writes, the
  timed intra-round batch flush) do not alter any consensus field; the
  outbound side is modelled as a plaintext outbox `message_batch`, and
  the flush loop of `flush_message_batch` takes the set of failing
  peers as an oracle `fails : Nat -> Bool`.
* Fallible Python code (attribute access on `None`, unbound names)
  returns `Except PyErr`.
-/

/-- Python runtime errors that the embedded fragments can raise. -/
inductive PyErr where
  | nameError (missing : String) : PyErr
  | attributeError : PyErr
deriving DecidableEq, Repr

/-! ### Association-list helpers (Python dict semantics) -/

/-- Dict lookup: first binding of the key, if any. -/
def lookupA {κ α : Type} [BEq κ] : List (κ × α) → κ → Option α
  | [], _ => none
  | (k, v) :: rest, key => if k == key then some v else lookupA rest key

/-- Dict assignment `d[k] = v`: replace in place when present, else append
(CPython insertion order). -/
def setA {κ α : Type} [BEq κ] : List (κ × α) → κ → α → List (κ × α)
  | [], key, v => [(key, v)]
  | (k, w) :: rest, key, v =>
      if k == key then (key, v) :: rest else (k, w) :: setA rest key v

/-- Dict membership test (`k in d`). -/
def memA {κ α : Type} [BEq κ] (m : List (κ × α)) (k : κ) : Bool :=
  (lookupA m k).isSome

/-- Set add for the insertion-ordered `List Nat` model of Python sets. -/
def addToSet (x : Nat) (s : List Nat) : List Nat :=
  if s.contains x then s else s ++ [x]

/-! ### Canonical JSON (`json.dumps(..., sort_keys=True)`)

`Json`, `JsonList` and `JsonFields` are a mutual presentation of JSON
values restricted to the shapes the repository serialises (strings,
integers, arrays, objects).  `dumpsJson` reproduces `json.dumps` with
`sort_keys=True` and the default separators `", "` and `": "`, with
`ensure_ascii=True` escaping. -/

mutual
inductive Json where
  | str (s : String) : Json
  | int (n : Int) : Json
  | arr (elems : JsonList) : Json
  | obj (fields : JsonFields) : Json

inductive JsonList where
  | nil : JsonList
  | cons (hd : Json) (tl : JsonList) : JsonList

inductive JsonFields where
  | nil : JsonFields
  | cons (key : String) (val : Json) (tl : JsonFields) : JsonFields
end

/-- Length of a `JsonList` (Python `len` on the transactions list). -/
def JsonList.length : JsonList → Nat
  | .nil => 0
  | .cons _ tl => 1 + tl.length

/-- Lowercase hex digit. -/
def hexChar (n : Nat) : Char :=
  if n < 10 then Char.ofNat (48 + n) else Char.ofNat (87 + n)

/-- Four lowercase hex digits (for `\uXXXX` escapes). -/
def hex4 (n : Nat) : String :=
  String.mk [hexChar (n / 4096 % 16), hexChar (n / 256 % 16),
             hexChar (n / 16 % 16), hexChar (n % 16)]

/-- Escape one character the way `json.dumps` does with `ensure_ascii=True`. -/
def escapeJsonChar (c : Char) : String :=
  let n := c.toNat
  if n == 34 then "\\\""
  else if n == 92 then "\\\\"
  else if n == 8 then "\\b"
  else if n == 9 then "\\t"
  else if n == 10 then "\\n"
  else if n == 12 then "\\f"
  else if n == 13 then "\\r"
  else if n < 32 then "\\u" ++ hex4 n
  else if n < 127 then String.singleton c
  else if n < 65536 then "\\u" ++ hex4 n
  else
    let v := n - 65536
    "\\u" ++ hex4 (55296 + v / 1024) ++ "\\u" ++ hex4 (56320 + v % 1024)

/-- JSON string literal, double-quoted and escaped. -/
def quoteJsonString (s : String) : String :=
  "\"" ++ String.join (s.data.map escapeJsonChar) ++ "\""

/-- Python `repr` of an integer (what `json.dumps` emits for ints). -/
def intRepr (n : Int) : String :=
  if n < 0 then "-" ++ Nat.repr n.natAbs else Nat.repr n.natAbs

/-- Insert one `(key, rendered value)` pair into a key-sorted list
(string order, as `sort_keys=True` sorts). -/
def insertPairSorted (p : String × String) : List (String × String) → List (String × String)
  | [] => [p]
  | q :: tl => if p.1 < q.1 then p :: q :: tl else q :: insertPairSorted p tl

/-- Key-sort the rendered fields of an object (`sort_keys=True`; field
values are rendered independently of the ordering, so sorting the
rendered pairs gives exactly the Python output). -/
def sortPairs : List (String × String) → List (String × String)
  | [] => []
  | p :: tl => insertPairSorted p (sortPairs tl)

/-- Join rendered `"key": value` pairs with the default separators. -/
def joinFields : List (String × String) → String
  | [] => ""
  | [(k, v)] => quoteJsonString k ++ ": " ++ v
  | (k, v) :: tl => quoteJsonString k ++ ": " ++ v ++ ", " ++ joinFields tl

mutual
/-- `json.dumps(value, sort_keys=True)` with default separators. -/
def dumpsJson : Json → String
  | .str s => quoteJsonString s
  | .int n => intRepr n
  | .arr elems => "[" ++ dumpsList elems ++ "]"
  | .obj fields => "\x7b" ++ joinFields (sortPairs (dumpPairs fields)) ++ "\x7d"

/-- Comma-joined array elements. -/
def dumpsList : JsonList → String
  | .nil => ""
  | .cons hd .nil => dumpsJson hd
  | .cons hd tl => dumpsJson hd ++ ", " ++ dumpsList tl

/-- Render each field value, keeping the key alongside. -/
def dumpPairs : JsonFields → List (String × String)
  | .nil => []
  | .cons k v tl => (k, dumpsJson v) :: dumpPairs tl
end

/-! ### SHA-256 over the UTF-8 encoding (`hashlib.sha256(....encode())`) -/

/-- UTF-8 encoding of one code point, as byte values. -/
def utf8EncodeNat (c : Nat) : List Nat :=
  if c < 128 then [c]
  else if c < 2048 then [192 + c / 64, 128 + c % 64]
  else if c < 65536 then [224 + c / 4096, 128 + c / 64 % 64, 128 + c % 64]
  else [240 + c / 262144, 128 + c / 4096 % 64, 128 + c / 64 % 64, 128 + c % 64]

/-- `str.encode()`: UTF-8 bytes of a string. -/
def strToBytes (s : String) : List Nat :=
  (s.data.map (fun c => utf8EncodeNat c.toNat)).flatten

/-- Truncate to a 32-bit word. -/
def w32 (n : Nat) : Nat := n % 4294967296

/-- 32-bit right rotation. -/
def rotr32 (n x : Nat) : Nat := w32 ((x >>> n) ||| (x <<< (32 - n)))

def sigmaBig0 (x : Nat) : Nat := rotr32 2 x ^^^ rotr32 13 x ^^^ rotr32 22 x
def sigmaBig1 (x : Nat) : Nat := rotr32 6 x ^^^ rotr32 11 x ^^^ rotr32 25 x
def sigmaSmall0 (x : Nat) : Nat := rotr32 7 x ^^^ rotr32 18 x ^^^ (x >>> 3)
def sigmaSmall1 (x : Nat) : Nat := rotr32 17 x ^^^ rotr32 19 x ^^^ (x >>> 10)

/-- The 64 SHA-256 round constants of FIPS 180-4 (the fractional parts
of the cube roots of the first 64 primes), written in decimal. -/
def sha256K : List Nat :=
  [1116352408, 1899447441, 3049323471, 3921009573, 961987163, 1508970993,
   2453635748, 2870763221, 3624381080, 310598401, 607225278, 1426881987,
   1925078388, 2162078206, 2614888103, 3248222580, 3835390401, 4022224774,
   264347078, 604807628, 770255983, 1249150122, 1555081692, 1996064986,
   2554220882, 2821834349, 2952996808, 3210313671, 3336571891, 3584528711,
   113926993, 338241895, 666307205, 773529912, 1294757372, 1396182291,
   1695183700, 1986661051, 2177026350, 2456956037, 2730485921, 2820302411,
   3259730800, 3345764771, 3516065817, 3600352804, 4094571909, 275423344,
   430227734, 506948616, 659060556, 883997877, 958139571, 1322822218,
   1537002063, 1747873779, 1955562222, 2024104815, 2227730452, 2361852424,
   2428436474, 2756734187, 3204031479, 3329325298]

/-- SHA-256 initial hash state. -/
structure Sha8 where
  a : Nat
  b : Nat
  c : Nat
  d : Nat
  e : Nat
  f : Nat
  g : Nat
  h : Nat

def sha256Init : Sha8 :=
  ⟨1779033703, 3144134277, 1013904242, 2773480762,
   1359893119, 2600822924, 528734635, 1541459225⟩

/-- Big-endian byte list of a number, fixed width. -/
def beBytes (width n : Nat) : List Nat :=
  (List.range width).map (fun i => n / 256 ^ (width - 1 - i) % 256)

/-- SHA-256 padding: append `0x80`, zero-pad to 56 mod 64, append the
64-bit big-endian bit length. -/
def sha256Pad (msg : List Nat) : List Nat :=
  let r := (msg.length + 1) % 64
  let padLen := (120 - r) % 64
  msg ++ [128] ++ List.replicate padLen 0 ++ beBytes 8 (msg.length * 8)

/-- Split a byte list into 64-byte chunks. -/
def chunks64 : List Nat → List (List Nat)
  | [] => []
  | x :: rest => (x :: rest).take 64 :: chunks64 ((x :: rest).drop 64)
termination_by l => l.length
decreasing_by simp [List.length_drop]; omega

/-- Pack bytes into big-endian 32-bit words. -/
def packWords : List Nat → List Nat
  | b0 :: b1 :: b2 :: b3 :: rest =>
      (b0 * 16777216 + b1 * 65536 + b2 * 256 + b3) :: packWords rest
  | _ => []

/-- Extend 16 message words to the 64-entry schedule. -/
def sha256Schedule (ws : List Nat) : List Nat :=
  (List.range 48).foldl
    (fun acc _ =>
      let n := acc.length
      acc ++ [w32 (sigmaSmall1 (acc.getD (n - 2) 0) + acc.getD (n - 7) 0 +
                   sigmaSmall0 (acc.getD (n - 15) 0) + acc.getD (n - 16) 0)])
    ws

/-- One SHA-256 compression round. -/
def sha256Round (st : Sha8) (kw : Nat × Nat) : Sha8 :=
  let t1 := w32 (st.h + sigmaBig1 st.e + ((st.e &&& st.f) ^^^ ((4294967295 - st.e) &&& st.g)) +
                 kw.1 + kw.2)
  let t2 := w32 (sigmaBig0 st.a + ((st.a &&& st.b) ^^^ (st.a &&& st.c) ^^^ (st.b &&& st.c)))
  ⟨w32 (t1 + t2), st.a, st.b, st.c, w32 (st.d + t1), st.e, st.f, st.g⟩

/-- Process one 64-byte chunk. -/
def sha256Chunk (st : Sha8) (chunk : List Nat) : Sha8 :=
  let ws := sha256Schedule (packWords chunk)
  let r := (sha256K.zip ws).foldl sha256Round st
  ⟨w32 (st.a + r.a), w32 (st.b + r.b), w32 (st.c + r.c), w32 (st.d + r.d),
   w32 (st.e + r.e), w32 (st.f + r.f), w32 (st.g + r.g), w32 (st.h + r.h)⟩

/-- Eight lowercase hex digits of a 32-bit word. -/
def hex8 (n : Nat) : String := hex4 (n / 65536) ++ hex4 (n % 65536)

/-- `hashlib.sha256(s.encode()).hexdigest()`. -/
def sha256hex (s : String) : String :=
  let f := (chunks64 (sha256Pad (strToBytes s))).foldl sha256Chunk sha256Init
  hex8 f.a ++ hex8 f.b ++ hex8 f.c ++ hex8 f.d ++ hex8 f.e ++ hex8 f.f ++ hex8 f.g ++ hex8 f.h

/-! ### `block.py` -/

/-- A consensus block (`Block` in `block.py`).  `transactions` is the raw
list of JSON dicts the constructor receives; `timestamp` is the string
`json.dumps({"timestamp": time.time()})` the constructor stores. -/
structure Block where
  transactions : JsonList
  previous_hash : String
  leader_id : Nat
  round : Nat
  shard_id : Nat
  timestamp : String
  hash : String

/-- `Block.calculate_hash`: SHA-256 hex digest of the key-sorted JSON
serialisation of every field except `hash` itself. -/
def Block.calculateHash (b : Block) : String :=
  sha256hex (dumpsJson (.obj
    (.cons "transactions" (.arr b.transactions)
      (.cons "previous_hash" (.str b.previous_hash)
        (.cons "leader_id" (.int b.leader_id)
          (.cons "round" (.int b.round)
            (.cons "shard_id" (.int b.shard_id)
              (.cons "timestamp" (.str b.timestamp) .nil))))))))

/-- The dataflow of `Block.__init__` with the sampled clock value
supplied as the argument `ts` (standing for the string
`json.dumps({"timestamp": time.time()})`): store the fields, then set
`hash` by `calculate_hash`.  Argument order follows the source:
`(transactions, previous_hash, leader_id, round, shard_id)`. -/
def mkBlock (transactions : JsonList) (previous_hash : String)
    (leader_id round shard_id : Nat) (ts : String) : Block :=
  let core : Block :=
    { transactions := transactions, previous_hash := previous_hash,
      leader_id := leader_id, round := round, shard_id := shard_id,
      timestamp := ts, hash := "" }
  { core with hash := core.calculateHash }

/-- Names bound at module level in `block.py`: its imports
(`import hashlib`, `import json`, `from typing import List, Dict, Any`)
and the class it defines.  `time` is not among them. -/
def blockModuleGlobals : List String :=
  ["hashlib", "json", "List", "Dict", "Any", "Block"]

/-- Python builtin names that could also resolve a bare identifier;
`time` is a standard-library module, not a builtin. -/
def pythonBuiltinNames : List String :=
  ["abs", "all", "any", "bool", "bytes", "dict", "enumerate", "filter",
   "float", "int", "isinstance", "len", "list", "map", "max", "min",
   "object", "print", "range", "repr", "set", "sorted", "str", "sum",
   "super", "tuple", "type", "zip"]

/-- `Block.__init__` under actual Python name resolution: the line
`self.timestamp = json.dumps({"timestamp": time.time()})` looks up the
bare name `time` in the module globals and then the builtins; when the
lookup fails the call raises `NameError` before any field is assigned.
The `ok` branch documents the intended dataflow and is unreachable
because `block.py` never imports `time`. -/
def blockInit (transactions : JsonList) (previous_hash : String)
    (leader_id round shard_id : Nat) : Except PyErr Block :=
  if blockModuleGlobals.contains "time" || pythonBuiltinNames.contains "time" then
    .ok (mkBlock transactions previous_hash leader_id round shard_id "")
  else
    .error (.nameError "time")

/-! ### `node.py`: state -/

/-- A vote or consensus message as placed in the outbound batch.  Only
the fields the protocol carries are kept: `{"type": ..., "block":
{"hash": h}, "round": r, "sender_id": s}`. -/
inductive Msg where
  | prepare (hash : String) (round : Nat) (sender_id : Nat) : Msg
  | precommit (hash : String) (round : Nat) (sender_id : Nat) : Msg
  | commit (hash : String) (round : Nat) (sender_id : Nat) : Msg
deriving DecidableEq, Repr

/-- The consensus-relevant state of a `HotStuffNode`.  Vote dicts map
voter id to `True`, so they are kept as duplicate-free lists of voter
ids; `blockchain` is a list of `Option Block` because
`run_consensus_round` appends `self.current_block` verbatim, which can
in principle be `None`.  Wall-clock fields (`last_batch_time`,
`last_shard_adjustment`), metrics, the Fernet key and the executor have
no effect on the embedded operations and are omitted. -/
structure NodeState where
  node_id : Nat
  nodes : List Nat
  shard_id : Nat
  current_leader : Nat
  current_round : Nat
  blockchain : List (Option Block)
  prepare_votes : List Nat
  precommit_votes : List Nat
  commit_votes : List Nat
  current_block : Option Block
  locked_round : Int
  locked_block : Option Block
  byzantine_nodes : List Nat
  checkpoints : List (Nat × Option Block)
  checkpoint_interval : Nat
  behavior_scores : List (Nat × Nat)
  message_batch : List (Nat × Msg)
  shard_leaders : List (Nat × Nat)
  shard_load : List (Nat × Nat)

/-- `self.nodes - self.byzantine_nodes`, in the insertion order of the
`nodes` list (CPython iterates sets of small ints in ascending order;
the states used below keep `nodes` sorted so that the orders agree). -/
def activeNodesOf (s : NodeState) : List Nat :=
  s.nodes.filter (fun n => !s.byzantine_nodes.contains n)

/-- `send_message`: a recipient in `byzantine_nodes` is skipped;
otherwise the (conceptually encrypted) message joins the outbound
batch.  The time-triggered opportunistic flush inside `send_message`
touches no consensus field and is modelled by the separate
`flushMessageBatch`. -/
def sendMessage (m : Msg) (recipient : Nat) (s : NodeState) : NodeState :=
  if s.byzantine_nodes.contains recipient then s
  else { s with message_batch := s.message_batch ++ [(recipient, m)] }

/-- The broadcast loop `for node in active_nodes: if node != self.node_id:
await self.send_message(...)`. -/
def broadcastToActive (m : Msg) (active : List Nat) (s : NodeState) : NodeState :=
  active.foldl (fun st n => if n != st.node_id then sendMessage m n st else st) s

/-- `propose_block` with the sampled clock as `ts`: previous hash is the
hash of the last chain entry (`"0"` on an empty chain; if the last entry
is `None`, reading `.hash` raises `AttributeError`), then a block is
built and stored as `current_block`. -/
def proposeBlock (ts : String) (transactions : JsonList) (s : NodeState) :
    Except PyErr NodeState :=
  match s.blockchain.getLast? with
  | some none => .error .attributeError
  | some (some b) =>
      let blk := mkBlock transactions b.hash s.current_leader s.current_round s.shard_id ts
      .ok { s with current_block := some blk }
  | none =>
      let blk := mkBlock transactions "0" s.current_leader s.current_round s.shard_id ts
      .ok { s with current_block := some blk }

/-- `propose_block` under actual Python name resolution: `Block(...)`
raises `NameError` (see `blockInit`), after the previous-hash
computation, which itself raises `AttributeError` when the last chain
entry is `None`. -/
def proposeBlockPy (transactions : JsonList) (s : NodeState) :
    Except PyErr NodeState :=
  match s.blockchain.getLast? with
  | some none => .error .attributeError
  | some (some b) =>
      (blockInit transactions b.hash s.current_leader s.current_round s.shard_id).map
        (fun blk => { s with current_block := some blk })
  | none =>
      (blockInit transactions "0" s.current_leader s.current_round s.shard_id).map
        (fun blk => { s with current_block := some blk })

/-- `receive_vote(vote_type, node_id, block_hash, round)`: reject votes
from known Byzantine peers, then wrong-round votes; then the comparison
`block_hash != self.current_block.hash` dereferences `current_block`,
raising `AttributeError` when it is `None`; a hash mismatch rejects, and
an accepted vote records the voter in the dict for its type (an unknown
type records nothing but still returns `True`, as in the source). -/
def receiveVote (vote_type : String) (node_id : Nat) (block_hash : String)
    (round : Nat) (s : NodeState) : Except PyErr (Bool × NodeState) :=
  if s.byzantine_nodes.contains node_id then .ok (false, s)
  else if round != s.current_round then .ok (false, s)
  else match s.current_block with
    | none => .error .attributeError
    | some b =>
        if block_hash != b.hash then .ok (false, s)
        else if vote_type == "prepare" then
          .ok (true, { s with prepare_votes := addToSet node_id s.prepare_votes })
        else if vote_type == "precommit" then
          .ok (true, { s with precommit_votes := addToSet node_id s.precommit_votes })
        else if vote_type == "commit" then
          .ok (true, { s with commit_votes := addToSet node_id s.commit_votes })
        else .ok (true, s)

/-- Lines 210-216 of `node.py`: when the prepare votes exceed the
quorum threshold, broadcast `precommit` for `current_block.hash`
(dereferencing `current_block`, which raises on `None`); nothing else
changes - in particular `locked_round` and `locked_block` are not
assigned. -/
def prepareQuorumStep (active : List Nat) (s : NodeState) : Except PyErr NodeState :=
  if s.prepare_votes.length > active.length * 2 / 3 then
    match s.current_block with
    | none => .error .attributeError
    | some b => .ok (broadcastToActive (.precommit b.hash s.current_round s.node_id) active s)
  else .ok s

/-- Lines 218-224 of `node.py`: the same for precommit votes,
broadcasting `commit`. -/
def precommitQuorumStep (active : List Nat) (s : NodeState) : Except PyErr NodeState :=
  if s.precommit_votes.length > active.length * 2 / 3 then
    match s.current_block with
    | none => .error .attributeError
    | some b => .ok (broadcastToActive (.commit b.hash s.current_round s.node_id) active s)
  else .ok s

/-- Lines 226-235 of `node.py`: when the commit votes exceed the quorum
threshold, append `current_block` to `blockchain` verbatim, snapshot a
checkpoint every `checkpoint_interval` rounds, then clear
`current_block` and all three vote dicts.  No balance store is touched:
the node holds none and never calls into `distributed_ledger.py`. -/
def decideStep (active : List Nat) (s : NodeState) : NodeState :=
  if s.commit_votes.length > active.length * 2 / 3 then
    let s1 := { s with blockchain := s.blockchain ++ [s.current_block] }
    let s2 :=
      if s1.current_round % s1.checkpoint_interval == 0 then
        { s1 with checkpoints := setA s1.checkpoints s1.current_round s1.current_block }
      else s1
    { s2 with current_block := none, prepare_votes := [], precommit_votes := [],
              commit_votes := [] }
  else s

/-- `run_consensus_round(transactions)` with the sampled clock as `ts`:
increment the round, add the transaction count to the load of this shard,
compute the active set; an empty active set aborts the round (after
those two mutations).  Otherwise the leader is the shard-leader entry
when present, with fallback `active[current_round % len(active)]`; the
leader proposes and broadcasts `prepare`, and then every node runs the
three quorum checks in order. -/
def runConsensusRound (ts : String) (transactions : JsonList) (s0 : NodeState) :
    Except PyErr NodeState :=
  let s := { s0 with current_round := s0.current_round + 1 }
  let newLoad := setA s.shard_load s.shard_id
                   ((lookupA s.shard_load s.shard_id).getD 0 + transactions.length)
  let s := { s with shard_load := newLoad }
  let active := activeNodesOf s
  if active.isEmpty then .ok s
  else
    let leader := (lookupA s.shard_leaders s.shard_id).getD
                    (active.getD (s.current_round % active.length) 0)
    let s := { s with current_leader := leader }
    let afterPropose : Except PyErr NodeState :=
      if s.node_id == leader then
        (proposeBlock ts transactions s).map (fun s1 =>
          match s1.current_block with
          | some blk => broadcastToActive (.prepare blk.hash s1.current_round s1.node_id) active s1
          | none => s1)
      else .ok s
    afterPropose.bind (fun s1 =>
      (prepareQuorumStep active s1).bind (fun s2 =>
        (precommitQuorumStep active s2).map (fun s3 => decideStep active s3)))

/-- The data accessed from the `recovery_response` payload: the sent
`__dict__` of the sent block also carries `timestamp`, but `handle_recovery_data`
reads only these six keys. -/
structure WireBlock where
  transactions : JsonList
  previous_hash : String
  leader_id : Nat
  round : Nat
  shard_id : Nat
  hash : String

/-- `handle_recovery_data` under actual Python name resolution: rebuild
a block from the wire fields (overwriting its `hash` with the wire
hash, with no linkage or digest verification), then append it when
`round == len(blockchain)` or overwrite `blockchain[round]` when
`round < len(blockchain)`.  The `Block(...)` call raises `NameError`
(see `blockInit`) before any chain mutation, so the install branches
are never reached. -/
def handleRecoveryDataPy (d : WireBlock) (round : Nat) (s : NodeState) :
    Except PyErr NodeState :=
  (blockInit d.transactions d.previous_hash d.leader_id d.round d.shard_id).map
    (fun blk0 =>
      let blk := { blk0 with hash := d.hash }
      if round == s.blockchain.length then
        { s with blockchain := s.blockchain ++ [some blk] }
      else if round < s.blockchain.length then
        { s with blockchain := s.blockchain.set round (some blk) }
      else s)

/-- Recipients of the current batch in first-occurrence order (the key
order of the `defaultdict(list)` grouping in `flush_message_batch`). -/
def batchRecipients (batch : List (Nat × Msg)) : List Nat :=
  batch.foldl (fun acc p => addToSet p.1 acc) []

/-- Lines 79-110 of `node.py`: an empty batch is a no-op; otherwise the
batch is grouped per recipient and cleared, and each recipient is sent
its messages over a fresh connection.  `fails` is the transport oracle:
a failing send logs, adds the recipient to `byzantine_nodes`
immediately, increments its behavior score, and the `> 3` comparison
only chooses whether to log a warning.  Successful sends only record
metrics and latencies, which are outside the model. -/
def flushMessageBatch (fails : Nat → Bool) (s : NodeState) : NodeState :=
  if s.message_batch.isEmpty then s
  else
    let recipients := batchRecipients s.message_batch
    let s1 := { s with message_batch := [] }
    recipients.foldl
      (fun st rid =>
        if fails rid then
          { st with byzantine_nodes := addToSet rid st.byzantine_nodes,
                    behavior_scores :=
                      setA st.behavior_scores rid
                        ((lookupA st.behavior_scores rid).getD 0 + 1) }
        else st)
      s1

/-! ### `transaction.py` and `distributed_ledger.py` -/

/-- A `Transaction` record.  `timestamp` (a real in the source) is kept
over `Int`; `signature` and `hash` are the two content digests. -/
structure Transaction where
  sender : String
  receiver : String
  amount : Int
  timestamp : Int
  signature : String
  hash : String

/-- `Transaction.__init__` with the sampled clock as `now`
(`transaction.py` does import `time`): the signature is the digest of
the key-sorted serialisation of sender, receiver, amount and timestamp;
the hash additionally covers the signature. -/
def Transaction.init (now : Int) (sender receiver : String) (amount : Int) :
    Transaction :=
  let sig := sha256hex (dumpsJson (.obj
    (.cons "sender" (.str sender)
      (.cons "receiver" (.str receiver)
        (.cons "amount" (.int amount)
          (.cons "timestamp" (.int now) .nil))))))
  let h := sha256hex (dumpsJson (.obj
    (.cons "sender" (.str sender)
      (.cons "receiver" (.str receiver)
        (.cons "amount" (.int amount)
          (.cons "timestamp" (.int now)
            (.cons "signature" (.str sig) .nil)))))))
  { sender := sender, receiver := receiver, amount := amount,
    timestamp := now, signature := sig, hash := h }

/-- A transaction dict as stored inside a committed ledger block
(`tx.to_dict()` keys: `from`, `to`, `amount`, `timestamp`, `signature`,
`hash`).  `fromAcc`/`toAcc` stand for the `from`/`to` keys. -/
structure TxDict where
  fromAcc : String
  toAcc : String
  amount : Int
  timestamp : Int
  signature : String
  hash : String

/-- A ledger block dict (the shape produced by
`DistributedLedger.create_block`). -/
structure LedgerBlock where
  index : Nat
  timestamp : Int
  transactions : List TxDict
  leader_id : Nat
  round : Nat
  previous_hash : String
  hash : String

/-- The `DistributedLedger` state: hash-linked chain of block dicts,
FIFO pending pool, content-hash index, and the balance projection. -/
structure DistributedLedger where
  blockchain : List LedgerBlock
  pending_transactions : List Transaction
  transaction_map : List (String × Transaction)
  balances : List (String × Int)

namespace DistributedLedger

/-- `add_transaction`: unconditionally append to the pending pool and
index the transaction by its content hash (a repeated hash key
overwrites the map entry in place). -/
def add_transaction (l : DistributedLedger) (tx : Transaction) : DistributedLedger :=
  { l with pending_transactions := l.pending_transactions ++ [tx],
           transaction_map := setA l.transaction_map tx.hash tx }

/-- `validate_transaction`: the sender must exist in `balances` and hold
at least `amount`. -/
def validate_transaction (l : DistributedLedger) (tx : Transaction) : Bool :=
  if !memA l.balances tx.sender then false
  else if (lookupA l.balances tx.sender).getD 0 < tx.amount then false
  else true

/-- `apply_transaction`: debit the sender (creating the account at
`-amount` when absent), then credit the receiver (creating the account
at `amount` when absent). -/
def apply_transaction (l : DistributedLedger) (tx : Transaction) : DistributedLedger :=
  let bal1 :=
    if memA l.balances tx.sender then
      setA l.balances tx.sender ((lookupA l.balances tx.sender).getD 0 - tx.amount)
    else setA l.balances tx.sender (-tx.amount)
  let bal2 :=
    if memA bal1 tx.receiver then
      setA bal1 tx.receiver ((lookupA bal1 tx.receiver).getD 0 + tx.amount)
    else setA bal1 tx.receiver tx.amount
  { l with balances := bal2 }

/-- `add_block` with the sampled clock as `now`: append the block to the
chain; for each transaction dict in the block rebuild a `Transaction`
(the freshly computed timestamp, signature and hash are immediately
overwritten by the dict values) and apply it to the balances; finally
set `pending_transactions` to the empty list - the whole pool is
discarded, not just the transactions contained in the block. -/
def add_block (now : Int) (l : DistributedLedger) (block : LedgerBlock) :
    DistributedLedger :=
  let l1 := { l with blockchain := l.blockchain ++ [block] }
  let l2 := block.transactions.foldl
    (fun acc d =>
      let tx0 := Transaction.init now d.fromAcc d.toAcc d.amount
      let tx := { tx0 with timestamp := d.timestamp, signature := d.signature,
                           hash := d.hash }
      apply_transaction acc tx)
    l1
  { l2 with pending_transactions := [] }

/-- `get_balance`: current balance or `0`. -/
def get_balance (l : DistributedLedger) (user : String) : Int :=
  (lookupA l.balances user).getD 0

end DistributedLedger

/-- A node paired with a ledger holding the balance projection.  The
consensus engine in `node.py` holds no reference to any
`DistributedLedger` (the module is neither imported nor instantiated
there), so a consensus round acts as the identity on the ledger
component; this pairing is the arena in which the spec sentence "when a
quorum is reached the block is appended to the Ledger and balances are
applied" is assessed. -/
def systemRound (ts : String) (transactions : JsonList)
    (p : NodeState × DistributedLedger) :
    Except PyErr (NodeState × DistributedLedger) :=
  (runConsensusRound ts transactions p.1).map (fun n => (n, p.2))

/-! ### Strict Python semantics: post-states of possibly-raising handlers

Under real Python semantics an exception escaping a handler is caught
at the message loop (`handle_message`) or the scheduler, and the
mutations made before the raise persist.  The functions below give, for
each handler, the state the node is left in (paired with the escaped
error where one is possible), using the strict constructor model
`blockInit` - in which every `Block(...)` call raises `NameError` - so
that nothing here rests on a repaired constructor. -/

/-- The full effect of an inbound vote message in `process_message`:
an accepted vote records the voter; a cleanly rejected vote increments
the sender score and distrusts the sender past the threshold; the
`AttributeError` raised when `current_block` is `None` escapes before
any mutation, so the state is unchanged. -/
def processVoteMessage (vt : String) (p : Nat) (bh : String) (r : Nat)
    (s : NodeState) : NodeState :=
  match receiveVote vt p bh r s with
  | .ok (true, s2) => s2
  | .ok (false, _) =>
      let sc := (lookupA s.behavior_scores p).getD 0 + 1
      let s2 := { s with behavior_scores := setA s.behavior_scores p sc }
      if sc > 3 then { s2 with byzantine_nodes := addToSet p s2.byzantine_nodes }
      else s2
  | .error _ => s

/-- `run_consensus_round` under strict Python semantics: the state the
call leaves behind, paired with the error that escaped (if any).  The
round counter, shard load and leader assignment precede any exception
point; a leader crashes inside `propose_block` (see `proposeBlockPy`)
with those mutations kept and `current_block` untouched; the quorum
steps raise at `current_block.hash` before sending anything. -/
def runConsensusRoundPy (transactions : JsonList) (s0 : NodeState) :
    NodeState × Option PyErr :=
  let s := { s0 with current_round := s0.current_round + 1 }
  let newLoad := setA s.shard_load s.shard_id
                   ((lookupA s.shard_load s.shard_id).getD 0 + transactions.length)
  let s := { s with shard_load := newLoad }
  let active := activeNodesOf s
  if active.isEmpty then (s, none)
  else
    let leader := (lookupA s.shard_leaders s.shard_id).getD
                    (active.getD (s.current_round % active.length) 0)
    let s := { s with current_leader := leader }
    let tail := fun (s1 : NodeState) =>
      match prepareQuorumStep active s1 with
      | .error e => (s1, some e)
      | .ok s2 =>
        match precommitQuorumStep active s2 with
        | .error e => (s2, some e)
        | .ok s3 => (decideStep active s3, none)
    if s.node_id == leader then
      match proposeBlockPy transactions s with
      | .error e => (s, some e)
      | .ok s1 =>
        match s1.current_block with
        | some blk =>
            tail (broadcastToActive (.prepare blk.hash s1.current_round s1.node_id) active s1)
        | none => tail s1
    else tail s

/-- `handle_recovery_data` under strict Python semantics: the
`NameError` raised by `Block(...)` escapes before any chain access, so
the state is returned unchanged on error. -/
def handleRecoveryDataPyState (d : WireBlock) (round : Nat) (s : NodeState) :
    NodeState :=
  match handleRecoveryDataPy d round s with
  | .ok s2 => s2
  | .error _ => s

/-- The `add_node` message handler: `self.nodes.add(message["node_id"])`. -/
def addNodeOp (nid : Nat) (s : NodeState) : NodeState :=
  { s with nodes := addToSet nid s.nodes }

/-- The `remove_node` message handler: `self.nodes.discard(...)`. -/
def removeNodeOp (nid : Nat) (s : NodeState) : NodeState :=
  { s with nodes := s.nodes.erase nid }

/-- The `shard_leader` message handler: record the announced leader. -/
def shardLeaderOp (sid lid : Nat) (s : NodeState) : NodeState :=
  { s with shard_leaders := setA s.shard_leaders sid lid }

/-- The `shard_load` message handler: record the announced load. -/
def shardLoadOp (sid load : Nat) (s : NodeState) : NodeState :=
  { s with shard_load := setA s.shard_load sid load }

/-- The state effect of `adjust_shards_if_needed` when it fires: a new
shard-leader entry (the shard id and the randomly chosen leader are
oracle arguments; the broadcast only feeds the outbox). -/
def adjustShardsOp (sid lid : Nat) (s : NodeState) : NodeState :=
  { s with shard_leaders := setA s.shard_leaders sid lid }

/-- The modelled fields of a freshly constructed `HotStuffNode`
(`__init__`, lines 14-50): empty chain and vote dicts, no proposal, no
lock, no distrusted peers, checkpoint interval 5. -/
def initialNode (nid : Nat) (nodes : List Nat) (sid : Nat) : NodeState :=
  { node_id := nid, nodes := nodes, shard_id := sid, current_leader := 0,
    current_round := 0, blockchain := [], prepare_votes := [],
    precommit_votes := [], commit_votes := [], current_block := none,
    locked_round := -1, locked_block := none, byzantine_nodes := [],
    checkpoints := [], checkpoint_interval := 5, behavior_scores := [],
    message_batch := [], shard_leaders := [], shard_load := [] }

/-- Node states reachable under strict Python semantics: an initial
node followed by any sequence of handler effects - inbound votes,
locally driven consensus rounds, recovery responses, batch flushes,
membership changes and shard updates.  `send_recovery_data` and
`auto_recover` mutate only the request-dedup set and the outbox and
are therefore omitted; oracle arguments (message fields, the transport
oracle, the random shard leader) make this an over-approximation of
the states the process can actually visit, which is sound for proving
invariants. -/
inductive ReachablePy : NodeState → Prop where
  | init (nid : Nat) (nodes : List Nat) (sid : Nat) :
      ReachablePy (initialNode nid nodes sid)
  | vote (vt : String) (p : Nat) (bh : String) (r : Nat) {s : NodeState} :
      ReachablePy s → ReachablePy (processVoteMessage vt p bh r s)
  | round (txs : JsonList) {s : NodeState} :
      ReachablePy s → ReachablePy (runConsensusRoundPy txs s).1
  | recovery (d : WireBlock) (rd : Nat) {s : NodeState} :
      ReachablePy s → ReachablePy (handleRecoveryDataPyState d rd s)
  | flush (fails : Nat → Bool) {s : NodeState} :
      ReachablePy s → ReachablePy (flushMessageBatch fails s)
  | add_node (nid : Nat) {s : NodeState} :
      ReachablePy s → ReachablePy (addNodeOp nid s)
  | remove_node (nid : Nat) {s : NodeState} :
      ReachablePy s → ReachablePy (removeNodeOp nid s)
  | shard_leader_msg (sid lid : Nat) {s : NodeState} :
      ReachablePy s → ReachablePy (shardLeaderOp sid lid s)
  | shard_load_msg (sid load : Nat) {s : NodeState} :
      ReachablePy s → ReachablePy (shardLoadOp sid load s)
  | adjust_shards (sid lid : Nat) {s : NodeState} :
      ReachablePy s → ReachablePy (adjustShardsOp sid lid s)

/-- The consensus core a strict-semantics node can never populate:
empty chain, no proposal, empty vote dicts. -/
def coreUntouched (s : NodeState) : Prop :=
  s.blockchain = [] ∧ s.current_block = none ∧ s.prepare_votes = [] ∧
  s.precommit_votes = [] ∧ s.commit_votes = []

/-! ### Concrete fixtures used in the closed theorems below -/

/-- A node with every collection empty and all counters zero; concrete
states below override the fields a scenario needs. -/
def baseNode : NodeState :=
  { node_id := 0, nodes := [], shard_id := 0, current_leader := 0, current_round := 0,
    blockchain := [], prepare_votes := [], precommit_votes := [], commit_votes := [],
    current_block := none, locked_round := -1, locked_block := none,
    byzantine_nodes := [], checkpoints := [], checkpoint_interval := 5,
    behavior_scores := [], message_batch := [], shard_leaders := [], shard_load := [] }

/-- A block literal used as a pending proposal in several states. -/
def b0 : Block :=
  { transactions := .nil, previous_hash := "0", leader_id := 1, round := 1,
    shard_id := 0, timestamp := "t", hash := "bh" }

/-- Four nodes, prepare quorum already reached, leader pinned to node 1. -/
def c2x : NodeState :=
  { baseNode with nodes := [0, 1, 2, 3], prepare_votes := [1, 2, 3],
                  current_block := some b0, shard_leaders := [(0, 1)] }

/-- A minimal state with a pending proposal (active set empty). -/
def c2w : NodeState := { baseNode with current_block := some b0 }

/-- The state `c2w` reaches after one (aborted) consensus round. -/
def c2w2 : NodeState := { c2w with current_round := 1, shard_load := [(0, 0)] }

/-- All known peers are distrusted: the active set is empty. -/
def c7x : NodeState := { baseNode with nodes := [2], byzantine_nodes := [2] }

/-- Same shape as `c7x`, used to instantiate the amended statement. -/
def c7w : NodeState := { baseNode with nodes := [3], byzantine_nodes := [3] }

/-- A single-member network: the node is alone and becomes leader. -/
def c10w : NodeState := { baseNode with node_id := 7, nodes := [7] }

/-- A single-member network used for the counterexample. -/
def c10x : NodeState := { baseNode with node_id := 5, nodes := [5] }

/-- A proposal carrying one `Alice -> Bob, 100` transaction dict. -/
def c1blk : Block :=
  { transactions :=
      .cons (.obj (.cons "amount" (.int 100)
        (.cons "from" (.str "Alice") (.cons "to" (.str "Bob") .nil)))) .nil,
    previous_hash := "0", leader_id := 1, round := 1, shard_id := 0,
    timestamp := "t", hash := "bh" }

/-- Four nodes, commit quorum already reached on `c1blk`, node 1 leads. -/
def c1xn : NodeState :=
  { baseNode with nodes := [0, 1, 2, 3], commit_votes := [1, 2, 3],
                  current_block := some c1blk, shard_leaders := [(0, 1)] }

/-- Operator-seeded balances, as in the repository entry point. -/
def c1xl : DistributedLedger :=
  { blockchain := [], pending_transactions := [], transaction_map := [],
    balances := [("Alice", 1000), ("Bob", 1000)] }

/-- Three nodes with a commit quorum, used for the amended statement. -/
def c1wn : NodeState :=
  { baseNode with nodes := [0, 1, 2], commit_votes := [1, 2, 3],
                  current_block := some b0, shard_leaders := [(0, 1)] }

/-- An empty ledger for the amended statement of balance application. -/
def c1wl : DistributedLedger :=
  { blockchain := [], pending_transactions := [], transaction_map := [], balances := [] }

/-- A committed transaction dict `A -> B, 5`. -/
def c1wd : TxDict :=
  { fromAcc := "A", toAcc := "B", amount := 5, timestamp := 0,
    signature := "sig", hash := "h" }

/-- A proposal with a distinct hash, for vote-acceptance statements. -/
def b4 : Block :=
  { transactions := .nil, previous_hash := "0", leader_id := 1, round := 0,
    shard_id := 0, timestamp := "t", hash := "bh4" }

/-- Node 9 is distrusted and a proposal is pending. -/
def c4w : NodeState :=
  { baseNode with byzantine_nodes := [9], current_block := some b4 }

/-- A recovered block for round 0 whose wire hash is `"aaa"`. -/
def d30 : WireBlock :=
  { transactions := .nil, previous_hash := "0", leader_id := 1, round := 0,
    shard_id := 0, hash := "aaa" }

/-- One message to peer 5 waiting in the outbound batch. -/
def c6s : NodeState :=
  { baseNode with message_batch := [(5, Msg.prepare "h" 1 0)] }

/-- Transport oracle: exactly peer 5 is unreachable. -/
def c6fails : Nat → Bool := fun n => n == 5

/-- One message to peer 4, which already has behavior score 2. -/
def c6w : NodeState :=
  { baseNode with message_batch := [(4, Msg.commit "h" 1 0)],
                  behavior_scores := [(4, 2)] }

/-- Transport oracle: exactly peer 4 is unreachable. -/
def c6wfails : Nat → Bool := fun n => n == 4

/-- A pending transaction that no proposed block contains. -/
def t8 : Transaction :=
  { sender := "Alice", receiver := "Bob", amount := 100, timestamp := 0,
    signature := "sig", hash := "h8" }

/-- A ledger holding `t8` in its pool (the sender is underfunded, so a
leader would filter `t8` out of any proposal). -/
def l8 : DistributedLedger :=
  { blockchain := [], pending_transactions := [t8],
    transaction_map := [("h8", t8)], balances := [("Alice", 50)] }

/-- A committed block containing zero transactions. -/
def b8 : LedgerBlock :=
  { index := 1, timestamp := 0, transactions := [], leader_id := 1, round := 1,
    previous_hash := "0", hash := "bh8" }

/-- A transaction admitted twice in the duplicate-admission scenario. -/
def t9 : Transaction :=
  { sender := "C", receiver := "D", amount := 7, timestamp := 0,
    signature := "s9", hash := "h9" }

/-- An empty ledger. -/
def l9 : DistributedLedger :=
  { blockchain := [], pending_transactions := [], transaction_map := [], balances := [] }

/-! ### Helper lemmas -/

theorem lookupA_setA_self {κ α : Type} [BEq κ] [LawfulBEq κ]
    (m : List (κ × α)) (k : κ) (v : α) : lookupA (setA m k v) k = some v := by
  induction m with
  | nil => simp [setA, lookupA]
  | cons p rest ih =>
    by_cases hk : p.1 == k
    · simp [setA, hk, lookupA]
    · simp [setA, hk, lookupA, ih]

theorem lookupA_setA_other {κ α : Type} [BEq κ] [LawfulBEq κ]
    (m : List (κ × α)) (k k2 : κ) (v : α) (hne : k ≠ k2) :
    lookupA (setA m k v) k2 = lookupA m k2 := by
  induction m with
  | nil => simp [setA, lookupA, hne]
  | cons p rest ih =>
    by_cases hk : p.1 == k
    · have hp : p.1 = k := eq_of_beq hk
      simp [setA, hk, lookupA, hne, hp]
    · simp [setA, hk, lookupA, ih]

theorem setA_setA_same {κ α : Type} [BEq κ] [LawfulBEq κ]
    (m : List (κ × α)) (k : κ) (v : α) :
    setA (setA m k v) k v = setA m k v := by
  induction m with
  | nil => simp [setA]
  | cons p rest ih =>
    by_cases hk : p.1 == k
    · simp [setA, hk]
    · simp [setA, hk, ih]

theorem except_map_ok {ε α β : Type} {x : Except ε α} {f : α → β} {b : β}
    (h : x.map f = .ok b) : ∃ a, x = .ok a ∧ f a = b := by
  cases x with
  | error e => simp [Except.map] at h
  | ok a => refine ⟨a, rfl, ?_⟩; simpa [Except.map] using h

theorem except_bind_ok {ε α β : Type} {x : Except ε α} {f : α → Except ε β} {b : β}
    (h : x.bind f = .ok b) : ∃ a, x = .ok a ∧ f a = .ok b := by
  cases x with
  | error e => simp [Except.bind] at h
  | ok a => exact ⟨a, rfl, by simpa [Except.bind] using h⟩

/-- `send_message` only appends to the outbound batch: any projection
insensitive to `message_batch` is preserved. -/
theorem send_pres {α : Type} (g : NodeState → α)
    (hg : ∀ st b, g { st with message_batch := b } = g st)
    (m : Msg) (k : Nat) (s : NodeState) : g (sendMessage m k s) = g s := by
  unfold sendMessage
  split
  · rfl
  · exact hg s _

/-- The broadcast loop only appends to the outbound batch. -/
theorem broadcast_pres {α : Type} (g : NodeState → α)
    (hg : ∀ st b, g { st with message_batch := b } = g st)
    (m : Msg) (active : List Nat) (s : NodeState) :
    g (broadcastToActive m active s) = g s := by
  induction active generalizing s with
  | nil => rfl
  | cons n rest ih =>
    have h1 : broadcastToActive m (n :: rest) s
        = broadcastToActive m rest
            (if (n != s.node_id) = true then sendMessage m n s else s) := rfl
    rw [h1, ih]
    split
    · exact send_pres g hg m n s
    · rfl

/-- A successful `propose_block` only stores the new `current_block`. -/
theorem propose_ok_pres {ts : String} {txs : JsonList} {s r : NodeState}
    (h : proposeBlock ts txs s = .ok r) {α : Type} (g : NodeState → α)
    (hg : ∀ st blk, g { st with current_block := some blk } = g st) : g r = g s := by
  unfold proposeBlock at h
  split at h
  · cases h
  · cases h; exact hg s _
  · cases h; exact hg s _

/-- A successful prepare-quorum step only broadcasts. -/
theorem prepareQ_ok_pres {active : List Nat} {s r : NodeState}
    (h : prepareQuorumStep active s = .ok r) {α : Type} (g : NodeState → α)
    (hg : ∀ st b, g { st with message_batch := b } = g st) : g r = g s := by
  unfold prepareQuorumStep at h
  split at h
  · split at h
    · cases h
    · cases h; exact broadcast_pres g hg _ active s
  · cases h; rfl

/-- A successful precommit-quorum step only broadcasts. -/
theorem precommitQ_ok_pres {active : List Nat} {s r : NodeState}
    (h : precommitQuorumStep active s = .ok r) {α : Type} (g : NodeState → α)
    (hg : ∀ st b, g { st with message_batch := b } = g st) : g r = g s := by
  unfold precommitQuorumStep at h
  split at h
  · split at h
    · cases h
    · cases h; exact broadcast_pres g hg _ active s
  · cases h; rfl

/-- `decideStep` never touches the lock fields. -/
theorem decide_locked (active : List Nat) (s : NodeState) :
    (decideStep active s).locked_round = s.locked_round ∧
    (decideStep active s).locked_block = s.locked_block := by
  unfold decideStep
  split
  · dsimp only
    split <;> exact ⟨rfl, rfl⟩
  · exact ⟨rfl, rfl⟩

/-- Folding a blockchain-preserving step preserves any such projection. -/
theorem foldl_pres {β γ δ : Type} (g : β → γ) (f : β → δ → β)
    (hf : ∀ a d, g (f a d) = g a) :
    ∀ (ds : List δ) (acc : β), g (List.foldl f acc ds) = g acc := by
  intro ds
  induction ds with
  | nil => intro acc; rfl
  | cons d rest ih => intro acc; rw [List.foldl_cons, ih, hf]

/-- Claim C8, counterexample.  The ledger `l8` holds the pending
transaction `t8` (underfunded sender, so it would be filtered out of any
proposal) and the committed block `b8` contains zero transactions; the
claim demands that `t8`, not being contained in `b8`, remain in
`pending` after the commit, but `add_block` empties the entire pool. -/
theorem C8_counterexample :
    (DistributedLedger.add_block 0 l8 b8).pending_transactions.length = 0 ∧
    l8.pending_transactions.length = 1 ∧
    b8.transactions.length = 0 ∧ (0 : Nat) ≠ 1 := by
  exact ⟨rfl, rfl, rfl, by decide⟩

/-- Claim C8, amended.  `add_block` appends the block to the chain and
then discards the whole pending pool: `pending_transactions` is set to
the empty list regardless of which transactions the block contains, so
a transaction rejected by `validate` at proposal time is dropped, not
retried. -/
theorem C8_add_block_clears_all_pending (now : Int) (l : DistributedLedger)
    (b : LedgerBlock) :
    (DistributedLedger.add_block now l b).pending_transactions = [] ∧
    (DistributedLedger.add_block now l b).blockchain = l.blockchain ++ [b] := by
  refine ⟨rfl, ?_⟩
  unfold DistributedLedger.add_block
  dsimp only
  refine foldl_pres (fun x : DistributedLedger => x.blockchain) _ ?_ b.transactions _
  intro a d
  rfl

/-- Claim C9, counterexample.  Admitting the same transaction twice
leaves two copies in `pending`, where the claim demands a single entry
and a no-op second admit. -/
theorem C9_counterexample :
    (DistributedLedger.add_transaction (DistributedLedger.add_transaction l9 t9) t9).pending_transactions.length = 2 ∧
    (DistributedLedger.add_transaction l9 t9).pending_transactions.length = 1 ∧
    (2 : Nat) ≠ 1 := by
  exact ⟨rfl, rfl, by decide⟩

/-- Claim C9, amended.  A second admit of the same transaction appends a
second copy to `pending` (the pool holds both), while `tx_index` is
unchanged by the repetition: the content-hash key is overwritten in
place with the same transaction. -/
theorem C9_second_admit_duplicates_pending (l : DistributedLedger) (tx : Transaction) :
    (DistributedLedger.add_transaction (DistributedLedger.add_transaction l tx) tx).pending_transactions
      = l.pending_transactions ++ [tx, tx] ∧
    (DistributedLedger.add_transaction (DistributedLedger.add_transaction l tx) tx).transaction_map
      = (DistributedLedger.add_transaction l tx).transaction_map := by
  constructor
  · show (l.pending_transactions ++ [tx]) ++ [tx] = l.pending_transactions ++ [tx, tx]
    simp
  · show setA (setA l.transaction_map tx.hash tx) tx.hash tx
      = setA l.transaction_map tx.hash tx
    exact setA_setA_same l.transaction_map tx.hash tx

/-- Claim C5, confirmed.  `block.py` imports only `hashlib`, `json` and
the `typing` names, yet `Block.__init__` evaluates `time.time()`; the
bare name `time` resolves against neither the module globals nor the
builtins, so every construction of a `Block` raises
`NameError` for the name `time`.  Consequently every call of
`propose_block` fails (no leader ever produces a proposal) and every
call of `handle_recovery_data` fails before touching the chain. -/
theorem C5_block_constructor_name_error :
    (∀ txs prev lid rnd sid, blockInit txs prev lid rnd sid = .error (.nameError "time")) ∧
    (∀ txs s, ∃ e, proposeBlockPy txs s = .error e) ∧
    (∀ d rd s, handleRecoveryDataPy d rd s = .error (.nameError "time")) := by
  refine ⟨fun txs prev lid rnd sid => rfl, fun txs s => ?_, fun d rd s => rfl⟩
  unfold proposeBlockPy
  match h : s.blockchain.getLast? with
  | some none => exact ⟨.attributeError, rfl⟩
  | some (some b) => exact ⟨.nameError "time", rfl⟩
  | none => exact ⟨.nameError "time", rfl⟩

/-- Claim C4, counterexample.  In `baseNode` no peer is distrusted, the
round matches and `current_block` is `None`: the claim demands a clean
rejection (success flag `False`, vote sets untouched), but
`receive_vote` evaluates `self.current_block.hash` and raises
`AttributeError` instead of returning. -/
theorem C4_counterexample :
    receiveVote "prepare" 1 "x" 0 baseNode = .error .attributeError ∧
    baseNode.byzantine_nodes = [] ∧
    baseNode.current_block = none ∧
    baseNode.current_round = 0 := by
  exact ⟨rfl, rfl, rfl, rfl⟩

/-- Claim C4, amended.  `receive_vote` accepts a vote (returns `True`
and inserts the voter into the set for its type) exactly when the
sender is not distrusted, the round matches and the hash matches
`current_block.hash`; a distrusted sender or a wrong round is rejected
cleanly before `current_block` is read, and a hash mismatch is rejected
cleanly; but when the first two checks pass while `current_block` is
`None`, the call raises `AttributeError` instead of rejecting. -/
theorem C4_receive_vote_amended (s : NodeState) (vt : String) (p : Nat)
    (bh : String) (r : Nat) :
    (s.byzantine_nodes.contains p = true → receiveVote vt p bh r s = .ok (false, s)) ∧
    (s.byzantine_nodes.contains p = false → r ≠ s.current_round →
      receiveVote vt p bh r s = .ok (false, s)) ∧
    (s.byzantine_nodes.contains p = false → r = s.current_round →
      s.current_block = none → receiveVote vt p bh r s = .error .attributeError) ∧
    (∀ b, s.byzantine_nodes.contains p = false → r = s.current_round →
      s.current_block = some b → bh ≠ b.hash →
      receiveVote vt p bh r s = .ok (false, s)) ∧
    (∀ b, s.byzantine_nodes.contains p = false → r = s.current_round →
      s.current_block = some b → bh = b.hash →
      receiveVote "prepare" p bh r s
          = .ok (true, { s with prepare_votes := addToSet p s.prepare_votes }) ∧
      receiveVote "precommit" p bh r s
          = .ok (true, { s with precommit_votes := addToSet p s.precommit_votes }) ∧
      receiveVote "commit" p bh r s
          = .ok (true, { s with commit_votes := addToSet p s.commit_votes })) := by
  refine ⟨?_, ?_, ?_, ?_, ?_⟩
  · intro h1
    unfold receiveVote
    rw [h1]
    rfl
  · intro h1 h2
    have hb2 : (r != s.current_round) = true := bne_iff_ne.mpr h2
    unfold receiveVote
    rw [h1, hb2]
    rfl
  · intro h1 h2 h3
    subst h2
    unfold receiveVote
    rw [h1, bne_self_eq_false, h3]
    rfl
  · intro b h1 h2 h3 h4
    subst h2
    have hb4 : (bh != b.hash) = true := bne_iff_ne.mpr h4
    unfold receiveVote
    rw [h1, bne_self_eq_false, h3]
    dsimp only
    rw [hb4]
    rfl
  · intro b h1 h2 h3 h4
    subst h2
    subst h4
    refine ⟨?_, ?_, ?_⟩ <;>
      (unfold receiveVote; rw [h1, bne_self_eq_false, h3]; dsimp only;
       rw [bne_self_eq_false]; rfl)

/-- Claim C4, witness for the amended statement: in `c4w` (node 9
distrusted, proposal `b4` pending) a matching prepare vote from node 2
is accepted into `prepare_votes`, while the same vote from distrusted
node 9 is rejected cleanly. -/
theorem C4_witness :
    receiveVote "prepare" 2 "bh4" 0 c4w
      = .ok (true, { c4w with prepare_votes := [2] }) ∧
    receiveVote "prepare" 9 "bh4" 0 c4w = .ok (false, c4w) := by
  constructor
  · exact ((C4_receive_vote_amended c4w "prepare" 2 "bh4" 0).2.2.2.2 b4
      rfl rfl rfl rfl).1
  · exact (C4_receive_vote_amended c4w "prepare" 9 "bh4" 0).1 rfl

/-- Claim C6, counterexample.  One batched message to peer 5 and a
transport failure on the flush: peer 5 is added to `byzantine_nodes`
immediately, with behavior score 1 - the claim demands that at score 1
the peer not yet be distrusted. -/
theorem C6_counterexample :
    (flushMessageBatch c6fails c6s).byzantine_nodes = [5] ∧
    lookupA (flushMessageBatch c6fails c6s).behavior_scores 5 = some 1 ∧
    c6s.byzantine_nodes = [] ∧
    c6s.message_batch.length = 1 := by
  exact ⟨rfl, rfl, rfl, rfl⟩

/-- Claim C6, amended.  A transport failure while flushing to peer `p`
increments the behavior score of `p` by 1 and adds `p` to
`byzantine_nodes` immediately, on the first failure; the `> 3`
threshold comparison only selects a log line.  The batch is cleared
before the sends. -/
theorem C6_flush_failure_marks_immediately (fails : Nat → Bool) (s : NodeState)
    (p : Nat) (m : Msg) (hb : s.message_batch = [(p, m)]) (hf : fails p = true) :
    (flushMessageBatch fails s).byzantine_nodes = addToSet p s.byzantine_nodes ∧
    lookupA (flushMessageBatch fails s).behavior_scores p
      = some ((lookupA s.behavior_scores p).getD 0 + 1) ∧
    (flushMessageBatch fails s).message_batch = [] := by
  unfold flushMessageBatch
  rw [hb]
  dsimp only [batchRecipients, List.foldl, addToSet, List.contains_nil, List.isEmpty_cons]
  simp only [Bool.false_eq_true, if_false, List.nil_append, hf, if_true]
  exact ⟨trivial, lookupA_setA_self _ _ _, trivial⟩

/-- Claim C6, witness for the amended statement: peer 4 already has
behavior score 2; after one failed flush it has score 3 and is
distrusted. -/
theorem C6_witness :
    (flushMessageBatch c6wfails c6w).byzantine_nodes = addToSet 4 c6w.byzantine_nodes ∧
    lookupA (flushMessageBatch c6wfails c6w).behavior_scores 4
      = some ((lookupA c6w.behavior_scores 4).getD 0 + 1) ∧
    (flushMessageBatch c6wfails c6w).message_batch = [] := by
  exact C6_flush_failure_marks_immediately c6wfails c6w 4 (Msg.commit "h" 1 0) rfl rfl

/-- A vote from a distrusted sender is rejected cleanly. -/
theorem receiveVote_byz {s : NodeState} {vt : String} {p : Nat} {bh : String}
    {r : Nat} (h1 : s.byzantine_nodes.contains p = true) :
    receiveVote vt p bh r s = .ok (false, s) := by
  unfold receiveVote
  rw [h1]
  rfl

/-- A vote for a round other than the current one is rejected cleanly. -/
theorem receiveVote_wrong_round {s : NodeState} {vt : String} {p : Nat}
    {bh : String} {r : Nat} (h1 : s.byzantine_nodes.contains p = false)
    (h2 : r ≠ s.current_round) : receiveVote vt p bh r s = .ok (false, s) := by
  have hb2 : (r != s.current_round) = true := bne_iff_ne.mpr h2
  unfold receiveVote
  rw [h1, hb2]
  rfl

/-- A current-round vote from a trusted sender with no proposal pending
raises `AttributeError`. -/
theorem receiveVote_none {s : NodeState} {vt : String} {p : Nat} {bh : String}
    (h1 : s.byzantine_nodes.contains p = false) (h3 : s.current_block = none) :
    receiveVote vt p bh s.current_round s = .error .attributeError := by
  unfold receiveVote
  rw [h1, bne_self_eq_false, h3]
  rfl

/-- An inbound vote message cannot populate the consensus core while no
proposal is pending: the acceptance path needs `current_block`, and the
rejection paths touch only the scores and the distrust set. -/
theorem processVoteMessage_core (vt : String) (p : Nat) (bh : String) (r : Nat)
    (s : NodeState) (h : coreUntouched s) :
    coreUntouched (processVoteMessage vt p bh r s) := by
  obtain ⟨e1, e2, e3, e4, e5⟩ := h
  by_cases h1 : s.byzantine_nodes.contains p
  · unfold processVoteMessage
    rw [receiveVote_byz h1]
    dsimp only
    split
    · exact ⟨e1, e2, e3, e4, e5⟩
    · exact ⟨e1, e2, e3, e4, e5⟩
  · have h1b : s.byzantine_nodes.contains p = false := by
      revert h1
      cases s.byzantine_nodes.contains p <;> simp
    by_cases h2 : r = s.current_round
    · subst h2
      unfold processVoteMessage
      rw [receiveVote_none h1b e2]
      exact ⟨e1, e2, e3, e4, e5⟩
    · unfold processVoteMessage
      rw [receiveVote_wrong_round h1b h2]
      dsimp only
      split
      · exact ⟨e1, e2, e3, e4, e5⟩
      · exact ⟨e1, e2, e3, e4, e5⟩

/-- A strict-semantics consensus round cannot populate the consensus
core: a leader crashes in `Block(...)` before storing a proposal, and
with empty vote dicts none of the strict quorum checks fires. -/
theorem runConsensusRoundPy_core (txs : JsonList) (s : NodeState)
    (h : coreUntouched s) : coreUntouched (runConsensusRoundPy txs s).1 := by
  obtain ⟨e1, e2, e3, e4, e5⟩ := h
  unfold runConsensusRoundPy proposeBlockPy prepareQuorumStep precommitQuorumStep
    decideStep
  dsimp only
  split
  · exact ⟨e1, e2, e3, e4, e5⟩
  · split
    · rw [e1]
      dsimp only [List.getLast?]
      have hbi : ∀ t p l r2 sh, blockInit t p l r2 sh
          = Except.error (PyErr.nameError "time") := fun _ _ _ _ _ => rfl
      rw [hbi]
      dsimp only [Except.map]
      exact ⟨rfl, e2, e3, e4, e5⟩
    · simp only [e2, e3, e4, e5, List.length_nil]
      rw [if_neg (Nat.not_lt_zero _)]
      dsimp only
      simp only [List.length_nil]
      rw [if_neg (Nat.not_lt_zero _)]
      dsimp only
      simp only [List.length_nil]
      rw [if_neg (Nat.not_lt_zero _)]
      exact ⟨e1, rfl, rfl, rfl, rfl⟩

/-- A batch flush cannot populate the consensus core: it touches only
the outbox, the distrust set and the scores. -/
theorem flushMessageBatch_core (fails : Nat → Bool) (s : NodeState)
    (h : coreUntouched s) : coreUntouched (flushMessageBatch fails s) := by
  obtain ⟨e1, e2, e3, e4, e5⟩ := h
  unfold flushMessageBatch
  split
  · exact ⟨e1, e2, e3, e4, e5⟩
  · refine ⟨?_, ?_, ?_, ?_, ?_⟩
    · refine (foldl_pres (fun x : NodeState => x.blockchain) _ ?_ _ _).trans e1
      intro a d
      dsimp only
      split <;> rfl
    · refine (foldl_pres (fun x : NodeState => x.current_block) _ ?_ _ _).trans e2
      intro a d
      dsimp only
      split <;> rfl
    · refine (foldl_pres (fun x : NodeState => x.prepare_votes) _ ?_ _ _).trans e3
      intro a d
      dsimp only
      split <;> rfl
    · refine (foldl_pres (fun x : NodeState => x.precommit_votes) _ ?_ _ _).trans e4
      intro a d
      dsimp only
      split <;> rfl
    · refine (foldl_pres (fun x : NodeState => x.commit_votes) _ ?_ _ _).trans e5
      intro a d
      dsimp only
      split <;> rfl

/-- Claim C3, confirmed.  Under the real constructor semantics every
`Block(...)` call raises `NameError` (claim C5), so `propose_block`
never stores a proposal, `receive_vote` never accepts a vote, the
decide step never fires, and `handle_recovery_data` never installs a
block: every reachable chain is empty, and the claimed invariant -
`chain[i].previous_hash == chain[i-1].hash` and
`chain[i].hash == H(fields \ hash)` for every committed block at
`i > 0`, whether added by decide or installed by recovery - holds
vacuously on every reachable state. -/
theorem C3_reachable_chain_invariant (s : NodeState) (hs : ReachablePy s) :
    s.blockchain = [] ∧
    (∀ i b prev, 0 < i → s.blockchain.getD i none = some b →
      s.blockchain.getD (i - 1) none = some prev →
      b.previous_hash = prev.hash ∧ b.hash = Block.calculateHash b) := by
  have hcore : coreUntouched s := by
    induction hs with
    | init nid nodes sid => exact ⟨rfl, rfl, rfl, rfl, rfl⟩
    | vote vt p bh r hprev ih => exact processVoteMessage_core vt p bh r _ ih
    | round txs hprev ih => exact runConsensusRoundPy_core txs _ ih
    | recovery d rd hprev ih => exact ih
    | flush fails hprev ih => exact flushMessageBatch_core fails _ ih
    | add_node nid hprev ih => exact ih
    | remove_node nid hprev ih => exact ih
    | shard_leader_msg sid lid hprev ih => exact ih
    | shard_load_msg sid load hprev ih => exact ih
    | adjust_shards sid lid hprev ih => exact ih
  refine ⟨hcore.1, ?_⟩
  intro i b prev hi hb _
  rw [hcore.1] at hb
  simp [List.getD] at hb

/-- Claim C3, witness: two concretely reachable states - a node that
has processed a recovery response for `d30`, and a lone node that has
driven one consensus round as leader - both still have the empty
chain, on which the invariant is evaluated. -/
theorem C3_witness :
    (handleRecoveryDataPyState d30 0 (initialNode 0 [0, 1, 2, 3] 0)).blockchain = [] ∧
    (runConsensusRoundPy JsonList.nil (initialNode 7 [7] 0)).1.blockchain = [] := by
  constructor
  · exact (C3_reachable_chain_invariant _
      (ReachablePy.recovery d30 0 (ReachablePy.init 0 [0, 1, 2, 3] 0))).1
  · exact (C3_reachable_chain_invariant _
      (ReachablePy.round JsonList.nil (ReachablePy.init 7 [7] 0))).1

/-- Claim C7, counterexample.  With every known peer distrusted the
round aborts, but only after `current_round` was incremented and the
shard load increased by the transaction count - the claim demands no
state change at all. -/
theorem C7_counterexample :
    (runConsensusRound "t" (JsonList.cons (Json.int 1) JsonList.nil) c7x).map
        (fun st => st.current_round) = .ok 1 ∧
    c7x.current_round = 0 ∧
    (runConsensusRound "t" (JsonList.cons (Json.int 1) JsonList.nil) c7x).map
        (fun st => lookupA st.shard_load 0) = .ok (some 1) ∧
    lookupA c7x.shard_load 0 = none ∧
    (1 : Nat) ≠ 0 := by
  exact ⟨rfl, rfl, rfl, rfl, by decide⟩

/-- Claim C7, amended.  When the active set is empty the round aborts
and the resulting state differs from the old one in exactly two fields:
`current_round` is incremented and `shard_load[shard_id]` grows by the
transaction count; `current_block`, the vote sets and the chain are
untouched. -/
theorem C7_empty_active_aborts_after_mutation (ts : String) (txs : JsonList)
    (s : NodeState)
    (h : s.nodes.filter (fun n => !s.byzantine_nodes.contains n) = []) :
    runConsensusRound ts txs s
      = .ok { s with current_round := s.current_round + 1,
                     shard_load := setA s.shard_load s.shard_id
                       ((lookupA s.shard_load s.shard_id).getD 0 + txs.length) } := by
  unfold runConsensusRound activeNodesOf
  dsimp only
  rw [h]
  rfl

/-- Claim C7, witness for the amended statement at the concrete state
`c7w` (its only peer is distrusted). -/
theorem C7_witness :
    runConsensusRound "t" JsonList.nil c7w
      = .ok { c7w with current_round := 1, shard_load := [(0, 0)] } := by
  exact C7_empty_active_aborts_after_mutation "t" JsonList.nil c7w rfl

/-- Claim C10, counterexample.  `c10x` is alone in its network
(`active = [5]`, itself): running the round makes it leader, but the
round raises `NameError` inside `propose_block` - `Block.__init__`
evaluates the unbound name `time` (claim C5) - so the decide step is
never reached: the chain stays empty (the claim demands that it grow by
one) and no proposal is even stored. -/
theorem C10_counterexample :
    (runConsensusRoundPy JsonList.nil c10x).2 = some (.nameError "time") ∧
    (runConsensusRoundPy JsonList.nil c10x).1.blockchain.length = 0 ∧
    (runConsensusRoundPy JsonList.nil c10x).1.current_block = none ∧
    (runConsensusRoundPy JsonList.nil c10x).1.current_leader = 5 ∧
    c10x.node_id = 5 ∧
    activeNodesOf c10x = [5] ∧
    (0 : Nat) ≠ 1 := by
  exact ⟨rfl, rfl, rfl, rfl, rfl, rfl, by decide⟩

/-- Claim C10, amended.  At a node whose active set is exactly itself
(no shard-leader override), a consensus round elects the node itself as
leader, but the round then raises `NameError` inside `propose_block`
(the `Block` constructor evaluates the unbound name `time`, claim C5),
so the decide step is never reached and the chain never grows: the
blockchain and `current_block` are exactly as before, and only
`current_round`, the shard load and `current_leader` were mutated
before the raise. -/
theorem C10_lone_leader_crashes (txs : JsonList) (s : NodeState)
    (hA : s.nodes.filter (fun n => !s.byzantine_nodes.contains n) = [s.node_id])
    (hB : lookupA s.shard_leaders s.shard_id = none)
    (hL : s.blockchain.getLast? ≠ some none) :
    (runConsensusRoundPy txs s).2 = some (.nameError "time") ∧
    (runConsensusRoundPy txs s).1.blockchain = s.blockchain ∧
    (runConsensusRoundPy txs s).1.current_block = s.current_block ∧
    (runConsensusRoundPy txs s).1.current_round = s.current_round + 1 ∧
    (runConsensusRoundPy txs s).1.current_leader = s.node_id := by
  have hbi : ∀ t p l r2 sh, blockInit t p l r2 sh
      = Except.error (PyErr.nameError "time") := fun _ _ _ _ _ => rfl
  have hrun : runConsensusRoundPy txs s
      = ({ s with
            current_round := s.current_round + 1,
            shard_load := setA s.shard_load s.shard_id
              ((lookupA s.shard_load s.shard_id).getD 0 + txs.length),
            current_leader := s.node_id },
         some (.nameError "time")) := by
    unfold runConsensusRoundPy proposeBlockPy activeNodesOf
    dsimp only
    simp only [hA, List.isEmpty_cons, Bool.false_eq_true, if_false, hB,
      Option.getD_none, List.length_cons, List.length_nil, Nat.zero_add,
      Nat.mod_one, List.getD_cons_zero, beq_self_eq_true, if_true]
    cases hc : s.blockchain.getLast? with
    | none =>
        simp only [hc, hbi]
        rfl
    | some ob =>
        cases ob with
        | none => exact absurd hc hL
        | some b =>
            simp only [hc, hbi]
            rfl
  rw [hrun]
  exact ⟨rfl, rfl, rfl, rfl, rfl⟩

/-- Claim C10, witness for the amended statement at the concrete
single-member state `c10w`. -/
theorem C10_witness :
    (runConsensusRoundPy JsonList.nil c10w).2 = some (.nameError "time") ∧
    (runConsensusRoundPy JsonList.nil c10w).1.blockchain = [] ∧
    (runConsensusRoundPy JsonList.nil c10w).1.current_block = none ∧
    (runConsensusRoundPy JsonList.nil c10w).1.current_round = 1 ∧
    (runConsensusRoundPy JsonList.nil c10w).1.current_leader = 7 := by
  exact C10_lone_leader_crashes JsonList.nil c10w rfl rfl
    (fun h => Option.noConfusion h)

/-- Any projection insensitive to the outbound batch, the stored
proposal, the round counters, the shard load and the leader field, and
fixed by `decideStep`, is preserved by a successful consensus round. -/
theorem run_ok_pres {ts : String} {txs : JsonList} {s r : NodeState}
    (h : runConsensusRound ts txs s = .ok r) {α : Type} (g : NodeState → α)
    (hbatch : ∀ st b2, g { st with message_batch := b2 } = g st)
    (hcb : ∀ st blk, g { st with current_block := some blk } = g st)
    (hmut : ∀ st n load L, g { st with current_round := n, current_leader := L, shard_load := load } = g st)
    (hab : ∀ st n load, g { st with current_round := n, shard_load := load } = g st)
    (hdec : ∀ act st, g (decideStep act st) = g st) : g r = g s := by
  unfold runConsensusRound at h
  dsimp only at h
  split at h
  · injection h with h2
    rw [← h2]
    exact hab s _ _
  · obtain ⟨s1, h1, hrest⟩ := except_bind_ok h
    obtain ⟨s2, h3, hrest2⟩ := except_bind_ok hrest
    obtain ⟨s3, h5, h6⟩ := except_map_ok hrest2
    have g3 : g s3 = g s2 := precommitQ_ok_pres h5 g hbatch
    have g2 : g s2 = g s1 := prepareQ_ok_pres h3 g hbatch
    have g1 : g s1 = g s := by
      split at h1
      · obtain ⟨sp, hp, hF⟩ := except_map_ok h1
        have gp : g sp = g s := by
          have := propose_ok_pres hp g hcb
          rw [this]
          exact hmut s _ _ _
        cases hc : sp.current_block with
        | none => rw [hc] at hF; rw [← hF]; exact gp
        | some blk =>
            rw [hc] at hF
            rw [← hF, broadcast_pres g hbatch]
            exact gp
      · injection h1 with h1b
        rw [← h1b]
        exact hmut s _ _ _
    rw [← h6, hdec, g3, g2, g1]

/-- Claim C2, counterexample.  In `c2x` the prepare quorum is already
met (3 votes > 2 = 4*2//3), so the round broadcasts `precommit`; the
claim demands `locked_round = current_round` (= 1) afterwards, but
`locked_round` is still the initial `-1`: no assignment to the lock
fields exists anywhere in `run_consensus_round`. -/
theorem C2_counterexample :
    (runConsensusRound "t" JsonList.nil c2x).map (fun st => st.locked_round)
      = .ok (-1) ∧
    (runConsensusRound "t" JsonList.nil c2x).map (fun st => st.current_round)
      = .ok 1 ∧
    c2x.prepare_votes.length = 3 ∧
    (activeNodesOf c2x).length = 4 ∧
    3 > 4 * 2 / 3 ∧
    (-1 : Int) ≠ 1 := by
  exact ⟨rfl, rfl, rfl, rfl, by decide, by decide⟩

/-- Claim C2, amended.  A consensus round never assigns the lock
fields: after any successful `run_consensus_round` (prepare quorum or
not), `locked_round` and `locked_block` keep their previous values
(initially `-1` / `None`).  Separately, a prepare vote for a block
whose hash differs from `current_block.hash` is rejected - by the
current-block hash comparison in `receive_vote`, not by any lock. -/
theorem C2_no_lock_recorded :
    (∀ ts txs s r, runConsensusRound ts txs s = .ok r →
      r.locked_round = s.locked_round ∧ r.locked_block = s.locked_block) ∧
    (∀ s b p bh, s.byzantine_nodes.contains p = false → s.current_block = some b →
      bh ≠ b.hash →
      receiveVote "prepare" p bh s.current_round s = .ok (false, s)) := by
  constructor
  · intro ts txs s r h
    refine ⟨?_, ?_⟩
    · exact run_ok_pres h (fun st => st.locked_round) (fun _ _ => rfl) (fun _ _ => rfl)
        (fun _ _ _ _ => rfl) (fun _ _ _ => rfl) (fun act st => (decide_locked act st).1)
    · exact run_ok_pres h (fun st => st.locked_block) (fun _ _ => rfl) (fun _ _ => rfl)
        (fun _ _ _ _ => rfl) (fun _ _ _ => rfl) (fun act st => (decide_locked act st).2)
  · intro s b p bh h1 hcb hb
    have hb4 : (bh != b.hash) = true := bne_iff_ne.mpr hb
    unfold receiveVote
    rw [h1, bne_self_eq_false, hcb]
    dsimp only
    rw [hb4]
    rfl

/-- Claim C2, witness for the amended statement: the aborted round on
`c2w` keeps `locked_round = -1`, and a prepare for hash `"zz"` (not the
pending proposal hash `"bh"`) is rejected. -/
theorem C2_witness :
    c2w2.locked_round = c2w.locked_round ∧
    receiveVote "prepare" 2 "zz" c2w.current_round c2w = .ok (false, c2w) := by
  constructor
  · exact (C2_no_lock_recorded.1 "t" JsonList.nil c2w c2w2 rfl).1
  · exact C2_no_lock_recorded.2 c2w b0 2 "zz" rfl rfl (by decide)

/-- With a proposal pending, the prepare-quorum step cannot fail: it
either broadcasts `precommit` or does nothing. -/
theorem prepareQ_some (act : List Nat) (s : NodeState) (b : Block)
    (hcb : s.current_block = some b) :
    prepareQuorumStep act s
      = .ok (if s.prepare_votes.length > act.length * 2 / 3 then
               broadcastToActive (.precommit b.hash s.current_round s.node_id) act s
             else s) := by
  unfold prepareQuorumStep
  split
  · rw [hcb]
  · rfl

/-- With a proposal pending, the precommit-quorum step cannot fail: it
either broadcasts `commit` or does nothing. -/
theorem precommitQ_some (act : List Nat) (s : NodeState) (b : Block)
    (hcb : s.current_block = some b) :
    precommitQuorumStep act s
      = .ok (if s.precommit_votes.length > act.length * 2 / 3 then
               broadcastToActive (.commit b.hash s.current_round s.node_id) act s
             else s) := by
  unfold precommitQuorumStep
  split
  · rw [hcb]
  · rfl

/-- When the commit quorum holds and a proposal is pending, the decide
step appends the proposal, clears it and resets all three vote dicts. -/
theorem decideStep_fires (act : List Nat) (st : NodeState) (b : Block)
    (hcb : st.current_block = some b)
    (hq : st.commit_votes.length > act.length * 2 / 3) :
    (decideStep act st).blockchain = st.blockchain ++ [some b] ∧
    (decideStep act st).current_block = none ∧
    (decideStep act st).prepare_votes = [] ∧
    (decideStep act st).precommit_votes = [] ∧
    (decideStep act st).commit_votes = [] := by
  unfold decideStep
  rw [if_pos hq]
  dsimp only
  split
  · exact ⟨by rw [hcb], rfl, rfl, rfl, rfl⟩
  · exact ⟨by rw [hcb], rfl, rfl, rfl, rfl⟩

/-- Composite effect of the two middle quorum phases: with a proposal
pending they always succeed and only add outbound messages, whatever
the vote counts are. -/
theorem quorum_steps_ok (act : List Nat) (s : NodeState) (b : Block)
    (hcb : s.current_block = some b) :
    ∃ s2, ((prepareQuorumStep act s).bind
        (fun x => (precommitQuorumStep act x).map (fun s3 => decideStep act s3)))
        = .ok (decideStep act s2) ∧
      s2.current_block = some b ∧ s2.blockchain = s.blockchain ∧
      s2.commit_votes = s.commit_votes := by
  rw [prepareQ_some act s b hcb]
  by_cases hq1 : s.prepare_votes.length > act.length * 2 / 3
  · rw [if_pos hq1]
    dsimp only [Except.bind]
    have hcb1 : (broadcastToActive (.precommit b.hash s.current_round s.node_id) act s).current_block = some b := by
      rw [broadcast_pres (fun st => st.current_block) (fun _ _ => rfl)]
      exact hcb
    rw [precommitQ_some act _ b hcb1]
    by_cases hq2 : (broadcastToActive (.precommit b.hash s.current_round s.node_id) act s).precommit_votes.length > act.length * 2 / 3
    · rw [if_pos hq2]
      dsimp only [Except.map]
      refine ⟨_, rfl, ?_, ?_, ?_⟩
      · rw [broadcast_pres (fun st => st.current_block) (fun _ _ => rfl)]
        exact hcb1
      · rw [broadcast_pres (fun st => st.blockchain) (fun _ _ => rfl),
            broadcast_pres (fun st => st.blockchain) (fun _ _ => rfl)]
      · rw [broadcast_pres (fun st => st.commit_votes) (fun _ _ => rfl),
            broadcast_pres (fun st => st.commit_votes) (fun _ _ => rfl)]
    · rw [if_neg hq2]
      dsimp only [Except.map]
      refine ⟨_, rfl, hcb1, ?_, ?_⟩
      · rw [broadcast_pres (fun st => st.blockchain) (fun _ _ => rfl)]
      · rw [broadcast_pres (fun st => st.commit_votes) (fun _ _ => rfl)]
  · rw [if_neg hq1]
    dsimp only [Except.bind]
    rw [precommitQ_some act s b hcb]
    by_cases hq2 : s.precommit_votes.length > act.length * 2 / 3
    · rw [if_pos hq2]
      dsimp only [Except.map]
      refine ⟨_, rfl, ?_, ?_, ?_⟩
      · rw [broadcast_pres (fun st => st.current_block) (fun _ _ => rfl)]
        exact hcb
      · rw [broadcast_pres (fun st => st.blockchain) (fun _ _ => rfl)]
      · rw [broadcast_pres (fun st => st.commit_votes) (fun _ _ => rfl)]
    · rw [if_neg hq2]
      dsimp only [Except.map]
      exact ⟨s, rfl, hcb, rfl, rfl⟩

/-- `apply_transaction` on distinct sender and receiver: the sender
balance drops by `amount` (account created when absent) and the
receiver balance rises by `amount` (account created when absent). -/
theorem apply_transaction_balances (l : DistributedLedger) (tx : Transaction)
    (hne : tx.sender ≠ tx.receiver) :
    lookupA (DistributedLedger.apply_transaction l tx).balances tx.sender
      = some ((lookupA l.balances tx.sender).getD 0 - tx.amount) ∧
    lookupA (DistributedLedger.apply_transaction l tx).balances tx.receiver
      = some ((lookupA l.balances tx.receiver).getD 0 + tx.amount) := by
  unfold DistributedLedger.apply_transaction
  dsimp only
  constructor
  · split
    · split <;> rw [lookupA_setA_other _ _ _ _ (Ne.symm hne), lookupA_setA_self]
    · rename_i hm
      have hnone : lookupA l.balances tx.sender = none := by
        cases hls : lookupA l.balances tx.sender with
        | none => rfl
        | some v => rw [memA, hls] at hm; simp at hm
      split <;>
        (rw [lookupA_setA_other _ _ _ _ (Ne.symm hne), lookupA_setA_self, hnone]; simp)
  · split
    · split
      · rw [lookupA_setA_self, lookupA_setA_other _ _ _ _ hne]
      · rename_i hm2
        rw [memA, lookupA_setA_other _ _ _ _ hne] at hm2
        have hnone : lookupA l.balances tx.receiver = none := by
          cases hls : lookupA l.balances tx.receiver with
          | none => rfl
          | some v => rw [hls] at hm2; simp at hm2
        rw [lookupA_setA_self, hnone]
        simp
    · split
      · rw [lookupA_setA_self, lookupA_setA_other _ _ _ _ hne]
      · rename_i hm2
        rw [memA, lookupA_setA_other _ _ _ _ hne] at hm2
        have hnone : lookupA l.balances tx.receiver = none := by
          cases hls : lookupA l.balances tx.receiver with
          | none => rfl
          | some v => rw [hls] at hm2; simp at hm2
        rw [lookupA_setA_self, hnone]
        simp

/-- Claim C1, counterexample.  In the pair `(c1xn, c1xl)` the commit
quorum is met (3 votes > 2) on the proposal `c1blk`, which carries the
transaction `Alice -> Bob, 100`, and the ledger holds
`Alice = Bob = 1000`.  The decide step appends the block to the node
chain but the balances are exactly as before - the claim demands
`Alice = 900` - because no code path connects the consensus decide to
`DistributedLedger` balance application. -/
theorem C1_counterexample :
    (systemRound "t" JsonList.nil (c1xn, c1xl)).map (fun p => lookupA p.2.balances "Alice")
      = .ok (some 1000) ∧
    (systemRound "t" JsonList.nil (c1xn, c1xl)).map (fun p => lookupA p.2.balances "Bob")
      = .ok (some 1000) ∧
    (systemRound "t" JsonList.nil (c1xn, c1xl)).map (fun p => p.1.blockchain.length)
      = .ok 1 ∧
    c1xn.commit_votes.length = 3 ∧
    (activeNodesOf c1xn).length = 4 ∧
    3 > 4 * 2 / 3 ∧
    some (1000 : Int) ≠ some (900 : Int) := by
  exact ⟨rfl, rfl, rfl, rfl, rfl, by decide, by decide⟩

/-- Claim C1, amended.  Two separate facts replace the claimed single
step.  (i) At a non-leading node whose commit votes exceed the quorum
threshold with a proposal `b` pending, the consensus round appends `b`
to the node chain and clears the proposal and all vote sets - no
balances exist in the node state and none are touched.  (ii) Only
`DistributedLedger.add_block` - which the consensus engine never
invokes - applies a committed transaction to the balances: for a block
holding one transaction dict with distinct accounts, the sender balance
drops by `amount` and the receiver balance rises by `amount`, both
accounts existing afterwards. -/
theorem C1_decide_and_ledger_amended :
    (∀ ts txs s b ldr, lookupA s.shard_leaders s.shard_id = some ldr →
      (s.node_id == ldr) = false → s.current_block = some b →
      s.commit_votes.length
        > (s.nodes.filter (fun n => !s.byzantine_nodes.contains n)).length * 2 / 3 →
      s.nodes.filter (fun n => !s.byzantine_nodes.contains n) ≠ [] →
      (runConsensusRound ts txs s).map (fun st => st.blockchain)
          = .ok (s.blockchain ++ [some b]) ∧
      (runConsensusRound ts txs s).map (fun st => st.current_block) = .ok none ∧
      (runConsensusRound ts txs s).map (fun st => st.prepare_votes) = .ok [] ∧
      (runConsensusRound ts txs s).map (fun st => st.precommit_votes) = .ok [] ∧
      (runConsensusRound ts txs s).map (fun st => st.commit_votes) = .ok []) ∧
    (∀ now l d idx bts lid rnd prev bhash, d.fromAcc ≠ d.toAcc →
      lookupA (DistributedLedger.add_block now l
          (LedgerBlock.mk idx bts [d] lid rnd prev bhash)).balances d.fromAcc
        = some ((lookupA l.balances d.fromAcc).getD 0 - d.amount) ∧
      lookupA (DistributedLedger.add_block now l
          (LedgerBlock.mk idx bts [d] lid rnd prev bhash)).balances d.toAcc
        = some ((lookupA l.balances d.toAcc).getD 0 + d.amount) ∧
      (DistributedLedger.add_block now l
          (LedgerBlock.mk idx bts [d] lid rnd prev bhash)).blockchain
        = l.blockchain ++ [LedgerBlock.mk idx bts [d] lid rnd prev bhash]) := by
  constructor
  · intro ts txs s b ldr h1 h2 h3 h4 h5
    have hie : (List.filter (fun n => !s.byzantine_nodes.contains n) s.nodes).isEmpty
        = false := by
      cases hfe : List.filter (fun n => !s.byzantine_nodes.contains n) s.nodes with
      | nil => exact absurd hfe h5
      | cons a tl => rfl
    have hrun : ∃ s2, runConsensusRound ts txs s
        = .ok (decideStep (List.filter (fun n => !s.byzantine_nodes.contains n) s.nodes) s2) ∧
        s2.current_block = some b ∧ s2.blockchain = s.blockchain ∧
        s2.commit_votes = s.commit_votes := by
      unfold runConsensusRound activeNodesOf
      dsimp only
      simp only [h1, Option.getD_some, h2, Bool.false_eq_true, if_false, hie]
      dsimp only [Except.bind]
      exact quorum_steps_ok _ _ b h3
    obtain ⟨s2, hr, hcb2, hbc2, hcv2⟩ := hrun
    obtain ⟨e1, e2, e3, e4, e5⟩ :=
      decideStep_fires (List.filter (fun n => !s.byzantine_nodes.contains n) s.nodes)
        s2 b hcb2 (by rw [hcv2]; exact h4)
    rw [hr]
    refine ⟨?_, ?_, ?_, ?_, ?_⟩
    · dsimp only [Except.map]
      rw [e1, hbc2]
    · dsimp only [Except.map]
      rw [e2]
    · dsimp only [Except.map]
      rw [e3]
    · dsimp only [Except.map]
      rw [e4]
    · dsimp only [Except.map]
      rw [e5]
  · intro now l d idx bts lid rnd prev bhash hne
    have happ := apply_transaction_balances
      { l with blockchain := l.blockchain ++ [LedgerBlock.mk idx bts [d] lid rnd prev bhash] }
      { Transaction.init now d.fromAcc d.toAcc d.amount with
          timestamp := d.timestamp, signature := d.signature, hash := d.hash } hne
    refine ⟨happ.1, happ.2, ?_⟩
    unfold DistributedLedger.add_block
    dsimp only
    refine foldl_pres (fun x : DistributedLedger => x.blockchain) _ ?_ _ _
    intro a d2
    rfl

/-- Claim C1, witness for the amended statement: part (i) at `c1wn`
(three nodes, commit quorum on `b0`, node 1 leads) and part (ii) on an
empty ledger with the dict `A -> B, 5`. -/
theorem C1_witness :
    (runConsensusRound "t" JsonList.nil c1wn).map (fun st => st.blockchain)
      = .ok [some b0] ∧
    (runConsensusRound "t" JsonList.nil c1wn).map (fun st => st.current_block)
      = .ok none ∧
    lookupA (DistributedLedger.add_block 0 c1wl
        (LedgerBlock.mk 1 0 [c1wd] 1 1 "0" "lbh")).balances "A" = some (-5) ∧
    lookupA (DistributedLedger.add_block 0 c1wl
        (LedgerBlock.mk 1 0 [c1wd] 1 1 "0" "lbh")).balances "B" = some 5 := by
  refine ⟨?_, ?_, ?_, ?_⟩
  · exact (C1_decide_and_ledger_amended.1 "t" JsonList.nil c1wn b0 1 rfl rfl rfl
      (by decide) (by decide)).1
  · exact (C1_decide_and_ledger_amended.1 "t" JsonList.nil c1wn b0 1 rfl rfl rfl
      (by decide) (by decide)).2.1
  · exact (C1_decide_and_ledger_amended.2 0 c1wl c1wd 1 0 1 1 "0" "lbh" (by decide)).1
  · exact (C1_decide_and_ledger_amended.2 0 c1wl c1wd 1 0 1 1 "0" "lbh" (by decide)).2.1
